import Mathlib

/-!
Verification of the scan-orchestration core of ARL-Web-Alone.

The Python sources under app/services are shallowly embedded:

* decoded JSON values are modelled by the inductive `Json`; the external
  call json.loads applied to one line of scanner output is modelled by
  tagging the line as `NaabuLine.malformed` (blank line or decode error,
  both reach a continue statement) or `NaabuLine.valid j` with the decoded
  value `j`;
* Python exceptions are modelled with `Option` (none = the statement
  raised) or with explicit outcome constructors;
* subprocess invocations and the file system are modelled by explicit
  environment values (`BatchOutcome`, `IndivOutcome`, ...) describing the
  observable behaviour of the external tool, and by a `Finset String` of
  the paths currently present on disk;
* Python int() on a string is modelled by `pyStrToInt` (ASCII digits,
  optional sign, underscores strictly between digits, surrounding
  whitespace stripped); Python truthiness of a decoded JSON value is
  modelled by `Json.truthy`.
-/

/-- A decoded JSON value, as produced by json.loads: null, booleans,
numbers (naabu and miniscan emit integers), strings, arrays and objects.
Objects are the decoded dictionaries, so they carry no duplicate keys and
`List.lookup` models dict.get. -/
inductive Json where
  | null
  | bool (b : Bool)
  | num (n : Int)
  | str (s : String)
  | arr (xs : List Json)
  | obj (fields : List (String × Json))

mutual

def Json.decEq : (a b : Json) → Decidable (a = b)
  | .null, .null => isTrue rfl
  | .bool a, .bool b =>
    match Bool.decEq a b with
    | isTrue h => isTrue (h ▸ rfl)
    | isFalse h => isFalse (fun heq => h (by injection heq))
  | .num a, .num b =>
    match Int.decEq a b with
    | isTrue h => isTrue (h ▸ rfl)
    | isFalse h => isFalse (fun heq => h (by injection heq))
  | .str a, .str b =>
    match String.decEq a b with
    | isTrue h => isTrue (h ▸ rfl)
    | isFalse h => isFalse (fun heq => h (by injection heq))
  | .arr xs, .arr ys =>
    match Json.decEqList xs ys with
    | isTrue h => isTrue (h ▸ rfl)
    | isFalse h => isFalse (fun heq => h (by injection heq))
  | .obj xs, .obj ys =>
    match Json.decEqFields xs ys with
    | isTrue h => isTrue (h ▸ rfl)
    | isFalse h => isFalse (fun heq => h (by injection heq))
  | .null, .bool _ | .null, .num _ | .null, .str _ | .null, .arr _ | .null, .obj _ =>
    isFalse (by intro h; exact Json.noConfusion h)
  | .bool _, .null | .bool _, .num _ | .bool _, .str _ | .bool _, .arr _ | .bool _, .obj _ =>
    isFalse (by intro h; exact Json.noConfusion h)
  | .num _, .null | .num _, .bool _ | .num _, .str _ | .num _, .arr _ | .num _, .obj _ =>
    isFalse (by intro h; exact Json.noConfusion h)
  | .str _, .null | .str _, .bool _ | .str _, .num _ | .str _, .arr _ | .str _, .obj _ =>
    isFalse (by intro h; exact Json.noConfusion h)
  | .arr _, .null | .arr _, .bool _ | .arr _, .num _ | .arr _, .str _ | .arr _, .obj _ =>
    isFalse (by intro h; exact Json.noConfusion h)
  | .obj _, .null | .obj _, .bool _ | .obj _, .num _ | .obj _, .str _ | .obj _, .arr _ =>
    isFalse (by intro h; exact Json.noConfusion h)
termination_by structural a => a

def Json.decEqList : (xs ys : List Json) → Decidable (xs = ys)
  | [], [] => isTrue rfl
  | [], _ :: _ => isFalse (by intro h; exact List.noConfusion h)
  | _ :: _, [] => isFalse (by intro h; exact List.noConfusion h)
  | x :: xs, y :: ys =>
    match Json.decEq x y, Json.decEqList xs ys with
    | isTrue h1, isTrue h2 => isTrue (by rw [h1, h2])
    | isFalse h1, _ => isFalse (fun heq => h1 (by injection heq))
    | _, isFalse h2 => isFalse (fun heq => h2 (by injection heq))
termination_by structural xs => xs

def Json.decEqFields : (xs ys : List (String × Json)) → Decidable (xs = ys)
  | [], [] => isTrue rfl
  | [], _ :: _ => isFalse (by intro h; exact List.noConfusion h)
  | _ :: _, [] => isFalse (by intro h; exact List.noConfusion h)
  | (k1, v1) :: xs, (k2, v2) :: ys =>
    match String.decEq k1 k2, Json.decEq v1 v2, Json.decEqFields xs ys with
    | isTrue h1, isTrue h2, isTrue h3 => isTrue (by rw [h1, h2, h3])
    | isFalse h1, _, _ => isFalse (fun heq => h1 (by injection heq with h _; injection h))
    | _, isFalse h2, _ => isFalse (fun heq => h2 (by injection heq with h _; injection h))
    | _, _, isFalse h3 => isFalse (fun heq => h3 (by injection heq))
termination_by structural xs => xs

end

instance : DecidableEq Json := Json.decEq

/-- Python truthiness of a decoded JSON value: None, False, 0, empty
string, empty list and empty dict are falsy, everything else is truthy. -/
def Json.truthy : Json → Bool
  | .null => false
  | .bool b => b
  | .num n => n ≠ 0
  | .str s => s ≠ ""
  | .arr xs => !xs.isEmpty
  | .obj fs => !fs.isEmpty

/-- Python dict.get(key, default) on a decoded JSON object given as its
field list. -/
def pyGet (fields : List (String × Json)) (key : String) (dflt : Json) : Json :=
  (fields.lookup key).getD dflt

/-- ASCII whitespace, the character class Python str.strip removes on the
modelled (ASCII) input alphabet. -/
def pyIsSpace (c : Char) : Bool :=
  c = ' ' || c = '\t' || c = '\n' || c = '\r' || c = '\x0b' || c = '\x0c'

/-- Python str.strip() on the code points of a string: leading and
trailing whitespace removed. Implemented structurally over the character
list so that proofs can evaluate it. -/
def pyStrip (s : String) : String :=
  ⟨((s.data.dropWhile pyIsSpace).reverse.dropWhile pyIsSpace).reverse⟩

/-- Python str.lower() on the modelled (ASCII) input alphabet. -/
def pyLowerChar (c : Char) : Char :=
  if 65 ≤ c.toNat && c.toNat ≤ 90 then Char.ofNat (c.toNat + 32) else c

/-- Python str.lower(), character-wise. -/
def pyLower (s : String) : String :=
  ⟨s.data.map pyLowerChar⟩

/-- Python str.startswith, by code points. -/
def pyStartsWith (s p : String) : Bool :=
  p.data.isPrefixOf s.data

/-- Python slicing s[n:], by code points. -/
def pyDropChars (s : String) (n : Nat) : String :=
  ⟨s.data.drop n⟩

/-- Python membership test of a single character in a string. -/
def pyContainsChar (s : String) (c : Char) : Bool :=
  s.data.contains c

/-- Python str.split(sep) for a one-character separator, on a character
list: splitting the empty string yields one empty piece, as in Python. -/
def pySplitCharsOn (sep : Char) : List Char → List (List Char)
  | [] => [[]]
  | c :: rest =>
    let r := pySplitCharsOn sep rest
    if c = sep then [] :: r
    else
      match r with
      | g :: gs => (c :: g) :: gs
      | [] => [[c]]

/-- Python str.split(sep) for a one-character separator. -/
def pySplitOn (s : String) (sep : Char) : List String :=
  (pySplitCharsOn sep s.data).map List.asString

/-- Validity of the character sequence Python int() accepts after the
optional sign: at least one character, every character an ASCII digit or
an underscore, first and last characters digits, and no two consecutive
underscores (underscores are only legal strictly between digits). -/
def pyIntDigitsOk (cs : List Char) : Bool :=
  match cs with
  | [] => false
  | c :: _ =>
    c.isDigit && (cs.getLast?.elim false Char.isDigit)
      && cs.all (fun d => d.isDigit || d = '_')
      && pyNoDoubleUnderscore cs
where
  pyNoDoubleUnderscore : List Char → Bool
    | '_' :: '_' :: _ => false
    | _ :: rest => pyNoDoubleUnderscore rest
    | [] => true

/-- Numeric value of a digit/underscore sequence, ignoring underscores. -/
def pyDigitsVal (cs : List Char) : Int :=
  cs.foldl (fun v c => if c.isDigit then v * 10 + ((c.toNat : Int) - 48) else v) 0

/-- Python int() applied to a string: surrounding whitespace is ignored,
then an optional sign followed by digits (with underscores strictly
between digits); none models a ValueError. Unicode digits are outside the
modelled input alphabet. -/
def pyStrToInt (s : String) : Option Int :=
  let t := (pyStrip s).data
  let signed : Int × List Char :=
    match t with
    | '-' :: rest => (-1, rest)
    | '+' :: rest => (1, rest)
    | _ => (1, t)
  if pyIntDigitsOk signed.2 then some (signed.1 * pyDigitsVal signed.2) else none

/-- Python int() applied to a decoded JSON value: numbers are returned as
is, booleans become 0 or 1, strings go through `pyStrToInt`; anything
else raises (none). -/
def pyToInt : Json → Option Int
  | .num n => some n
  | .bool b => some (if b then 1 else 0)
  | .str s => pyStrToInt s
  | _ => none

/-- One entry of the port_info list built by
NaabuPortScan._parse_naabu_output: naabu supplies no service detection,
so service_name, version and product are always empty, and protocol is
whatever the protocol field of the JSON line decoded to (defaulting to
the string tcp). -/
structure PortInfo where
  port_id : Int
  service_name : String
  version : String
  product : String
  protocol : Json
deriving DecidableEq

/-- One element of the list returned by
NaabuPortScan._parse_naabu_output. The os_info field of the source is
always the empty dict and is omitted. The ip is the decoded JSON value
used as the grouping dictionary key. -/
structure HostResult where
  ip : Json
  port_info : List PortInfo
deriving DecidableEq

/-- One line of naabu output as seen after output.strip().split and the
per-line json.loads: either it reaches a continue statement before any
data is extracted (blank line or json.JSONDecodeError) or it decoded to a
JSON value. -/
inductive NaabuLine where
  | malformed
  | valid (data : Json)
deriving DecidableEq

/-- Membership test for the grouping dictionary ip_info_dict, keyed by
the decoded ip value. -/
def containsKey (acc : List (Json × List PortInfo)) (k : Json) : Bool :=
  acc.any (fun e => e.1 = k)

/-- ip_info_dict[ip].append(port_info): append p to the (unique) entry
whose key is k; no-op when the key is absent. -/
def appendPort (acc : List (Json × List PortInfo)) (k : Json) (p : PortInfo) :
    List (Json × List PortInfo) :=
  match acc with
  | [] => []
  | e :: rest => if e.1 = k then (e.1, e.2 ++ [p]) :: rest else e :: appendPort rest k p

/-- The body of the per-line loop of NaabuPortScan._parse_naabu_output:
extract host, ip (defaulting to host), port (defaulting to 0) and
protocol (defaulting to tcp); skip the line when ip or port is falsy;
otherwise create the dictionary entry for ip if absent and then append
the port record, whose port_id is int(port) — when that conversion
raises, the inner except clause skips the rest of the line but the
freshly created (empty) dictionary entry survives. A line whose decoded
value is not an object raises at the first attribute access and is
likewise skipped. -/
def processNaabuLine (acc : List (Json × List PortInfo)) : NaabuLine →
    List (Json × List PortInfo)
  | .malformed => acc
  | .valid data =>
    match data with
    | .obj fields =>
      let host := pyGet fields "host" (Json.str "")
      let ip := pyGet fields "ip" host
      let port := pyGet fields "port" (Json.num 0)
      let protocol := pyGet fields "protocol" (Json.str "tcp")
      if ip.truthy && port.truthy then
        let acc1 := if containsKey acc ip then acc else acc ++ [(ip, [])]
        match pyToInt port with
        | none => acc1
        | some pid => appendPort acc1 ip ⟨pid, "", "", "", protocol⟩
      else acc
    | _ => acc

/-- NaabuPortScan._parse_naabu_output: fold the per-line loop over the
tagged lines, then emit one HostResult per dictionary entry in insertion
order. -/
def parseNaabuOutput (lines : List NaabuLine) : List HostResult :=
  (lines.foldl processNaabuLine []).map (fun e => ⟨e.1, e.2⟩)

/-- Observable behaviour of one naabu invocation against a single target
in NaabuPortScan._scan_single_target: the invocation raised before
producing anything, timed out (the tool may or may not have created the
result file before being killed), or completed with a return code,
stdout (tagged lines), a flag saying whether the result file was created
(equivalently, whether it exists when polled), and the decoded file
content (none models a read error). -/
inductive IndivOutcome where
  | raised
  | timedOut (fileCreated : Bool)
  | completed (rc : Int) (stdout : List NaabuLine) (fileCreated : Bool)
      (fileContent : Option (List NaabuLine))

/-- NaabuPortScan._scan_single_target, value part: None on a non-zero
return code, timeout or exception; otherwise parse the result file if it
appeared (falling back to stdout when it did not) and return the first
parsed HostResult, or None when parsing produced nothing. -/
def scanSingleTarget : IndivOutcome → Option HostResult
  | .raised => none
  | .timedOut _ => none
  | .completed rc stdout fileCreated fileContent =>
    if rc ≠ 0 then none
    else if !fileCreated then
      if !stdout.isEmpty then (parseNaabuOutput stdout).head? else none
    else
      match fileContent with
      | none => none
      | some content => (parseNaabuOutput content).head?

/-- NaabuPortScan._scan_targets_individually: run the single-target scan
once per target, appending each truthy (i.e. some) result; a per-target
exception is caught by the loop and the iteration continues. -/
def scanTargetsIndividually (ienv : String → IndivOutcome) (targets : List String) :
    List HostResult :=
  targets.filterMap (fun t => scanSingleTarget (ienv t))

/-- Observable behaviour of the batch naabu invocation in
NaabuPortScan._scan_batch_targets: a non-subprocess exception inside the
try block, a subprocess timeout, or completion with return code, stdout,
result-file creation flag and decoded result-file content (none models a
read error). -/
inductive BatchOutcome where
  | raisedOther (fileCreated : Bool)
  | timedOut (fileCreated : Bool)
  | completed (rc : Int) (stdout : List NaabuLine) (fileCreated : Bool)
      (fileContent : Option (List NaabuLine))

/-- NaabuPortScan._scan_batch_targets, value part: fall back to the
individual scans on a non-zero return code or a timeout; when the result
file never appears within the polled grace-wait, parse stdout instead
(returning the empty list when stdout is empty); when it appears, parse
its content (a read error or empty content yields the empty list); any
other exception yields the empty list. -/
def scanBatchTargets (env : BatchOutcome) (ienv : String → IndivOutcome)
    (targets : List String) : List HostResult :=
  match env with
  | .raisedOther _ => []
  | .timedOut _ => scanTargetsIndividually ienv targets
  | .completed rc stdout fileCreated fileContent =>
    if rc ≠ 0 then scanTargetsIndividually ienv targets
    else if !fileCreated then
      if !stdout.isEmpty then parseNaabuOutput stdout else []
    else
      match fileContent with
      | none => []
      | some content => parseNaabuOutput content

/-- list(set(targets)) followed by the blacklist filter of the
module-level port_scan function. The CPython set iteration order is
unspecified; it is modelled as first-occurrence order, which no settled
property depends on. The blacklist predicate not_in_black_ips lives in
app.utils, outside the embedded sources, and is taken as a parameter. -/
def pyDedupFilter (notInBlackIps : String → Bool) (targets : List String) :
    List String :=
  targets.eraseDups.filter notInBlackIps

/-- The module-level port_scan function of app/services/naabuPortScan.py:
deduplicate and filter the targets, return the empty list when none
survive, otherwise run the batch scan. -/
def naabuPortScanRun (notInBlackIps : String → Bool) (env : BatchOutcome)
    (ienv : String → IndivOutcome) (targets : List String) : List HostResult :=
  let ts := pyDedupFilter notInBlackIps targets
  if ts.isEmpty then [] else scanBatchTargets env ienv ts

/-- Temporary file names used by one NaabuPortScan run: the batch target
file, the batch result file, and one result file per individual fallback
scan (tempfile names, unique per invocation). -/
structure NaabuTmpFiles where
  batchTargetFile : String
  batchResultFile : String
  indivResultFile : String → String

/-- Whether the modelled individual invocation left the per-target result
file on disk when control reaches the finally block. -/
def IndivOutcome.createsFile : IndivOutcome → Bool
  | .raised => false
  | .timedOut c => c
  | .completed _ _ c _ => c

/-- Whether the modelled batch invocation left the batch result file on
disk when control reaches the finally block. -/
def BatchOutcome.createsFile : BatchOutcome → Bool
  | .raisedOther c => c
  | .timedOut c => c
  | .completed _ _ c _ => c

/-- File-system effect of NaabuPortScan._scan_single_target: the result
file may be created by the tool, and the finally block unlinks it when it
exists. -/
def scanSingleTargetFS (fs : Finset String) (name : String) (o : IndivOutcome) :
    Finset String :=
  (if o.createsFile then insert name fs else fs).erase name

/-- File-system effect of NaabuPortScan._scan_targets_individually: the
single-target effects in sequence. -/
def scanTargetsIndividuallyFS (fs : Finset String) (tmp : NaabuTmpFiles)
    (ienv : String → IndivOutcome) (targets : List String) : Finset String :=
  targets.foldl (fun s t => scanSingleTargetFS s (tmp.indivResultFile t) (ienv t)) fs

/-- File-system effect of NaabuPortScan._scan_batch_targets: the target
file is written, the tool may create the batch result file, the fallback
path (non-zero return code or timeout) additionally runs the individual
effects, and the finally block unlinks the target file and then the
result file when they exist. -/
def scanBatchTargetsFS (fs : Finset String) (tmp : NaabuTmpFiles)
    (env : BatchOutcome) (ienv : String → IndivOutcome) (targets : List String) :
    Finset String :=
  let fs1 := insert tmp.batchTargetFile fs
  let fs2 := if env.createsFile then insert tmp.batchResultFile fs1 else fs1
  let fs3 :=
    match env with
    | .raisedOther _ => fs2
    | .timedOut _ => scanTargetsIndividuallyFS fs2 tmp ienv targets
    | .completed rc _ _ _ =>
      if rc ≠ 0 then scanTargetsIndividuallyFS fs2 tmp ienv targets else fs2
  (fs3.erase tmp.batchTargetFile).erase tmp.batchResultFile

/-- Temporary file paths of one NucleiScan run (random-suffixed, unique
per invocation): the target file, the legacy nuclei result path (never
written by the current code) and the vscanPlus result path. -/
structure NucleiTmpFiles where
  targetPath : String
  resultPath : String
  vscanResultPath : String

/-- Observable behaviour of one NucleiScan.run: exec_nuclei returned
early after writing the target file (empty target content or a read
failure), raised (vscanPlus binary missing, or any other exception — all
are caught by run), or invoked the tool, which may or may not have
created the result file. -/
inductive NucleiEnv where
  | earlyReturn
  | raisedInExec
  | ran (resultCreated : Bool)

/-- File-system effect of NucleiScan.run: _gen_target_file creates the
target file, the tool may create the vscanPlus result file, and the
finally block calls _delete_file, which removes each of the three
temporary paths that exists. -/
def nucleiRunFS (fs : Finset String) (tmp : NucleiTmpFiles) (env : NucleiEnv) :
    Finset String :=
  let fs1 := insert tmp.targetPath fs
  let fs2 :=
    match env with
    | .ran true => insert tmp.vscanResultPath fs1
    | _ => fs1
  ((fs2.erase tmp.targetPath).erase tmp.resultPath).erase tmp.vscanResultPath

/-- One entry of the port_info list built by
MiniscanPortScan._parse_single_json_result: port_id is the raw decoded
port field (default 0, no int() conversion here), the raw decoded service
field fills both service_name and product, version is the empty string
and protocol the string tcp (the two constant fields are omitted). -/
structure MiniPortInfo where
  port_id : Json
  service_name : Json
  product : Json
deriving DecidableEq

/-- One element of the list returned by
MiniscanPortScan._parse_json_file; os_info is always empty and omitted. -/
structure MiniHostResult where
  ip : Json
  port_info : List MiniPortInfo
deriving DecidableEq

/-- The service field of an open_ports entry: port_data.get with an
empty-string default; the source stores the raw decoded value into both
service_name and product. -/
def miniService (entry : List (String × Json)) : Json :=
  pyGet entry "service" (Json.str "")

/-- The body of the open_ports loop of
MiniscanPortScan._parse_single_json_result on one entry: an entry that is
not an object raises at the first attribute access (none); an entry whose
host field is falsy is skipped; otherwise the entry is appended to its
host group (created on demand). -/
def miniProcessEntry (acc : List (Json × List MiniPortInfo)) (entry : Json) :
    Option (List (Json × List MiniPortInfo)) :=
  match entry with
  | .obj fields =>
    let host := pyGet fields "host" (Json.str "")
    if host.truthy then
      let acc1 := if acc.any (fun e => e.1 = host) then acc else acc ++ [(host, [])]
      let svc := miniService fields
      let p : MiniPortInfo := ⟨pyGet fields "port" (Json.num 0), svc, svc⟩
      some (acc1.map (fun e => if e.1 = host then (e.1, e.2 ++ [p]) else e))
    else some acc
  | _ => none

/-- MiniscanPortScan._parse_single_json_result: non-dict data and data
without an open_ports field yield the empty list; a falsy open_ports
value yields the empty list; a truthy non-list open_ports value, and a
non-dict element inside the list, raise (none), which the caller turns
into an empty overall result. -/
def miniscanParseSingle (data : Json) : Option (List MiniHostResult) :=
  match data with
  | .obj fields =>
    match fields.lookup "open_ports" with
    | none => some []
    | some op =>
      match op with
      | .arr entries =>
        match entries.foldl
            (fun acc e => match acc with
              | none => none
              | some a => miniProcessEntry a e) (some []) with
        | none => none
        | some groups => some (groups.map (fun e => ⟨e.1, e.2⟩))
      | v => if v.truthy then none else some []
  | _ => some []

/-- MiniscanPortScan._parse_json_file: none models a missing or empty
file or a json.JSONDecodeError, which return the empty list; a decoded
object is handled by _parse_single_json_result; a decoded array is
handled element-wise, any exception discarding the whole result; any
other decoded type returns the empty list. -/
def miniscanParseJsonFile (content : Option Json) : List MiniHostResult :=
  match content with
  | none => []
  | some data =>
    match data with
    | .obj _ => (miniscanParseSingle data).getD []
    | .arr items =>
      (items.foldl
        (fun acc item => match acc with
          | none => none
          | some a =>
            match miniscanParseSingle item with
            | none => none
            | some parsed => some (a ++ parsed)) (some (([] : List MiniHostResult)))).getD []
    | _ => []

/-- MiniscanPortScan._determine_scan_mode, the branch taken when the
port_scan_type configuration is consulted (ports string falsy): the
scan-type test maps to top100, the four literal mode names map to
themselves, anything else (including a falsy scan type) falls through to
the top1000 default. -/
def miniscanScanTypeFallback : Option String → String
  | some t =>
    if t ≠ "" then
      if t = "test" then "top100"
      else if t = "top100" || t = "top1000" || t = "all" || t = "custom" then t
      else "top1000"
    else "top1000"
  | none => "top1000"

/-- MiniscanPortScan._determine_scan_mode: a truthy ports string is
normalised (strip and lowercase); the three symbolic tokens map to
themselves, the literal full range maps to the all mode, any other
explicit list is custom; a falsy ports string defers to the scan-type
fallback. -/
def miniscanDetermineScanMode (portScanType portsStr : Option String) : String :=
  match portsStr with
  | some s =>
    if s ≠ "" then
      let normalized := pyLower (pyStrip s)
      if normalized = "top100" || normalized = "top1000" || normalized = "all" then
        normalized
      else if normalized = "0-65535" then "all"
      else "custom"
    else miniscanScanTypeFallback portScanType
  | none => miniscanScanTypeFallback portScanType

/-- NaabuPortScan._determine_scan_mode. The three predefined port lists
Config.TOP_10, Config.TOP_100 and Config.TOP_1000 live in app.config,
outside the embedded sources, and are taken as parameters. A falsy ports
string maps to top1000, the predefined lists map to the naabu top-ports
arguments 100 and 1000, the literal full range maps to full, and any
other string is custom. The scan-type configuration is never consulted. -/
def naabuDetermineScanMode (top10 top100 top1000 : String)
    (portsStr : Option String) : String :=
  match portsStr with
  | none => "top1000"
  | some s =>
    if s = "" then "top1000"
    else if s = top10 then "100"
    else if s = top100 then "100"
    else if s = top1000 then "1000"
    else if s = "0-65535" then "full"
    else "custom"

/-- One comma-separated component of NaabuPortScan._count_ports: the
component is stripped; a component without a dash counts 1; a component
with a dash is split on dashes, and when that yields exactly the two
halves of a range whose endpoints both parse as ints the count is
end - start + 1, every failure (more than two pieces, or an endpoint
int() raising) being caught and counted as 1. -/
def naabuCountPart (part : String) : Int :=
  let p := pyStrip part
  if pyContainsChar p '-' then
    match pySplitOn p '-' with
    | [a, b] =>
      match pyStrToInt a, pyStrToInt b with
      | some x, some y => y - x + 1
      | _, _ => 1
    | _ => 1
  else 1

/-- NaabuPortScan._count_ports: 0 for a falsy ports string, otherwise the
sum of the per-component counts. -/
def naabuCountPorts (portsStr : String) : Int :=
  if portsStr = "" then 0
  else ((pySplitOn portsStr ',').map naabuCountPart).sum

/-- One comma-separated component of MiniscanPortScan._count_ports: no
strip, no exception handling — a dashed component that does not split
into exactly two int()-parsable halves raises a ValueError out of the
function (none). -/
def miniscanCountPart (part : String) : Option Int :=
  if pyContainsChar part '-' then
    match pySplitOn part '-' with
    | [a, b] =>
      match pyStrToInt a, pyStrToInt b with
      | some x, some y => some (y - x + 1)
      | _, _ => none
    | _ => none
  else some 1

/-- MiniscanPortScan._count_ports: 0 for a falsy ports string, otherwise
the sum of the per-component counts, any component raising making the
whole call raise (none). -/
def miniscanCountPorts (portsStr : String) : Option Int :=
  if portsStr = "" then some 0
  else
    (pySplitOn portsStr ',').foldl
      (fun acc part =>
        match acc, miniscanCountPart part with
        | some c, some d => some (c + d)
        | _, _ => none) (some 0)

/-- The batch timeout estimate of NaabuPortScan._scan_batch_targets:
scan_time is (port count times target count) divided by the packet rate
(a float division, modelled over the rationals; a zero rate raises a
ZeroDivisionError, modelled as none), the safety factor is 5 and the
buffer 300 seconds, raised to 8 and 600 when more than 1000 ports or
more than 10 targets are scanned; the total of the 180-second base,
the scaled scan time and the buffer is truncated to an integer and
clamped to the interval from 600 to 7200 seconds. -/
def naabuBatchTimeout (portCount targets rate : Nat) : Option Nat :=
  if rate = 0 then none
  else
    let scanTime : ℚ := ((portCount : ℚ) * (targets : ℚ)) / (rate : ℚ)
    let safetyFactor : ℚ := if 1000 < portCount ∨ 10 < targets then 8 else 5
    let bufferTime : ℚ := if 1000 < portCount ∨ 10 < targets then 600 else 300
    some (max 600 (min 7200 (Int.toNat ⌊(180 : ℚ) + scanTime * safetyFactor + bufferTime⌋)))

/-- The batch timeout estimate of MiniscanPortScan._scan_batch_targets:
(port count times target count) divided by the thread count (guarded
below by 1) times the per-port timeout plus two, truncated to an integer
and clamped to the interval from 60 to 1800 seconds. -/
def miniscanBatchTimeout (portCount targets parallelism perPortTimeout : Nat) : Nat :=
  max 60 (min 1800 (Int.toNat
    ⌊((portCount : ℚ) * (targets : ℚ)) / (max 1 parallelism : ℚ)
      * ((perPortTimeout : ℚ) + 2)⌋))

/-- Observable behaviour of one streaming GET issued by ProbeHTTP.work:
either the request raised a network-level exception (caught by the
work-pool dispatch, modelled from the spec: a failure inside one target
is logged and treated as no result, never aborting the others) or an
HTTP response with the given status code was obtained. -/
inductive ProbeOutcome where
  | raised
  | response (status : Int)

/-- The liveness rule of ProbeHTTP.work: any response is alive except
status codes 502 and 504; an exception is not alive. -/
def probeAlive : ProbeOutcome → Bool
  | .raised => false
  | .response s => !(s = 502 || s = 504)

/-- ProbeHTTP._build_targets: an https and an http probe URL per domain,
in input order. -/
def buildProbeTargets (domains : List String) : List String :=
  domains.foldr (fun d acc => ("https://" ++ d) :: ("http://" ++ d) :: acc) []

/-- Modelled from the spec: the BaseThread work pool (app/services/
baseThread.py is not part of the embedded sources). The spec contract is
that work runs once per target with per-target failure isolation and no
inherent completion order; the model runs the ProbeHTTP.work appends in
target order, which fixes one admissible order. The surviving sites are
the targets whose probe produced an alive response. -/
def probeSurvivors (outcome : String → ProbeOutcome) (targets : List String) :
    List String :=
  targets.filter (fun t => probeAlive (outcome t))

/-- The scheme-collapse loop of ProbeHTTP.run: keep every surviving site
that starts with https; keep a site starting with http only when the
https variant (https prepended in place of http) is not among the
surviving sites. -/
def schemeCollapse (sites : List String) : List String :=
  sites.filter (fun x =>
    if pyStartsWith x "https://" then true
    else if pyStartsWith x "http://" then !(sites.contains ("https://" ++ pyDropChars x 7))
    else false)

/-- ProbeHTTP.run: probe the built targets, then scheme-collapse the
surviving sites. -/
def probeHTTPRun (outcome : String → ProbeOutcome) (domains : List String) :
    List String :=
  schemeCollapse (probeSurvivors outcome (buildProbeTargets domains))

/-- The value stored by CheckHTTP.check for an alive URL: the status code
and the Content-Type header (empty when absent). -/
structure CheckItem where
  status : Int
  contentType : String
deriving DecidableEq

/-- Observable behaviour of one GET issued by CheckHTTP.check: a
requests.exceptions.RequestException, any other exception (logged), or a
response with a status code and a Content-Type header. -/
inductive CheckOutcome where
  | raisedRequest
  | raisedOther
  | response (status : Int) (contentType : String)

/-- CheckHTTP.work over the whole URL list: per-URL exceptions of either
kind are swallowed without touching the map and without aborting the
loop; a response with status 502 or 504 yields None and stores nothing;
any other response stores the status and Content-Type under the URL. The
checkout map is modelled as an association list in completion order. -/
def checkHTTPRun (outcome : String → CheckOutcome) (urls : List String) :
    List (String × CheckItem) :=
  urls.filterMap (fun u =>
    match outcome u with
    | .raisedRequest => none
    | .raisedOther => none
    | .response s ct => if s = 502 || s = 504 then none else some (u, ⟨s, ct⟩))

/-- Whether a decoded JSON value is a number. -/
def Json.isNum : Json → Bool
  | .num _ => true
  | _ => false

/-- Whether the port field a line of naabu output supplies (with its
default 0) is a JSON number — the shape genuine naabu JSON output has.
Trivially true for lines that do not decode to an object. -/
def linePortIsNum : NaabuLine → Bool
  | .valid (.obj fields) => (pyGet fields "port" (Json.num 0)).isNum
  | _ => true

lemma appendPort_keys (acc : List (Json × List PortInfo)) (k : Json) (p : PortInfo) :
    (appendPort acc k p).map Prod.fst = acc.map Prod.fst := by
  induction acc with
  | nil => rfl
  | cons e rest ih =>
    by_cases h : e.1 = k <;> simp [appendPort, h, ih]

lemma mem_appendPort {acc : List (Json × List PortInfo)} {k : Json} {p : PortInfo}
    {e : Json × List PortInfo} (he : e ∈ appendPort acc k p) :
    e ∈ acc ∨ ∃ e0 ∈ acc, e = (e0.1, e0.2 ++ [p]) := by
  induction acc with
  | nil => simp [appendPort] at he
  | cons a rest ih =>
    by_cases h : a.1 = k
    · simp only [appendPort, if_pos h, List.mem_cons] at he
      rcases he with he | he
      · exact Or.inr ⟨a, List.mem_cons_self a rest, he⟩
      · exact Or.inl (List.mem_cons_of_mem a he)
    · simp only [appendPort, if_neg h, List.mem_cons] at he
      rcases he with he | he
      · exact Or.inl (he ▸ List.mem_cons_self a rest)
      · rcases ih he with h1 | ⟨e0, h1, h2⟩
        · exact Or.inl (List.mem_cons_of_mem a h1)
        · exact Or.inr ⟨e0, List.mem_cons_of_mem a h1, h2⟩

lemma containsKey_iff (acc : List (Json × List PortInfo)) (k : Json) :
    containsKey acc k = true ↔ k ∈ acc.map Prod.fst := by
  simp [containsKey, List.any_eq_true, List.mem_map]

lemma appendPort_append_fresh (acc : List (Json × List PortInfo)) (k : Json)
    (ps : List PortInfo) (p : PortInfo) (h : containsKey acc k = false) :
    appendPort (acc ++ [(k, ps)]) k p = acc ++ [(k, ps ++ [p])] := by
  induction acc with
  | nil => simp [appendPort]
  | cons e rest ih =>
    simp only [containsKey, List.any_cons, Bool.or_eq_false_iff, decide_eq_false_iff_not]
      at h
    simp only [List.cons_append, appendPort, if_neg h.1]
    exact congrArg (e :: ·) (ih (by simpa [containsKey] using h.2))

lemma foldl_processNaabuLine_filter (lines : List NaabuLine)
    (acc : List (Json × List PortInfo)) :
    lines.foldl processNaabuLine acc =
      (lines.filter (fun l => l ≠ NaabuLine.malformed)).foldl processNaabuLine acc := by
  induction lines generalizing acc with
  | nil => rfl
  | cons l rest ih =>
    cases l with
    | malformed =>
      rw [List.filter_cons_of_neg (by simp), List.foldl_cons]
      exact ih acc
    | valid data =>
      rw [List.filter_cons_of_pos (by simp), List.foldl_cons, List.foldl_cons]
      exact ih _

/-- C4: each well-formed JSON line is recovered into the canonical record
shape — the single line with host 10.0.0.1, port 80 and protocol tcp
produces exactly one HostResult for 10.0.0.1 holding exactly the
PortRecord with port_id 80 and protocol tcp; malformed lines interleaved
with valid ones never change the result (so the valid lines are still
recovered); an input of malformed lines only produces the empty list
rather than raising, and a miniscan result file that fails to decode
likewise produces the empty list. -/
theorem c4_normalizer_json_lines :
    (∀ lines : List NaabuLine,
        parseNaabuOutput lines =
          parseNaabuOutput (lines.filter (fun l => l ≠ NaabuLine.malformed))) ∧
    (∀ lines : List NaabuLine, (∀ l ∈ lines, l = NaabuLine.malformed) →
        parseNaabuOutput lines = []) ∧
    parseNaabuOutput
        [NaabuLine.valid (Json.obj
          [("host", Json.str "10.0.0.1"), ("port", Json.num 80),
           ("protocol", Json.str "tcp")])] =
      [⟨Json.str "10.0.0.1", [⟨80, "", "", "", Json.str "tcp"⟩]⟩] ∧
    miniscanParseJsonFile none = [] := by
  refine ⟨fun lines => ?_, fun lines h => ?_, by decide, rfl⟩
  · unfold parseNaabuOutput
    rw [foldl_processNaabuLine_filter]
  · have hf : lines.filter (fun l => l ≠ NaabuLine.malformed) = [] := by
      rw [List.filter_eq_nil_iff]
      intro l hl
      simp [h l hl]
    unfold parseNaabuOutput
    rw [foldl_processNaabuLine_filter, hf]
    rfl

/-- C4 witness: the general clauses applied at a concrete input — a fully
malformed two-line input parses to the empty list. -/
theorem c4_witness :
    parseNaabuOutput [NaabuLine.malformed, NaabuLine.malformed] = [] :=
  c4_normalizer_json_lines.2.1 [NaabuLine.malformed, NaabuLine.malformed]
    (by intro l hl; rcases List.mem_cons.mp hl with h | h
        · exact h
        · simpa using h)

lemma Json.isNum_iff {j : Json} : j.isNum = true ↔ ∃ n, j = Json.num n := by
  cases j <;> simp [Json.isNum]

/-- C10 (amended): the parser skips any record whose resolved host/ip
value is falsy or whose port value is falsy (in particular missing or
the number 0); when every port field of the input is a JSON number — the
shape genuine naabu output has — every HostResult carries a truthy host
identifier and a non-empty port-record list, and every PortRecord
carries a non-zero port_id. (Without the numeric-port restriction a
truthy string port can yield an empty port-record list or a zero
port_id; see the counterexample.) -/
theorem c10_parser_invariants (lines : List NaabuLine)
    (h : ∀ l ∈ lines, linePortIsNum l = true) :
    ∀ r ∈ parseNaabuOutput lines,
      r.ip.truthy = true ∧ r.port_info ≠ [] ∧ ∀ p ∈ r.port_info, p.port_id ≠ 0 := by
  have key : ∀ e ∈ lines.foldl processNaabuLine [],
      e.1.truthy = true ∧ e.2 ≠ [] ∧ ∀ p ∈ e.2, p.port_id ≠ 0 := by
    refine @List.foldlRecOn _ _
      (fun acc => ∀ e ∈ acc, e.1.truthy = true ∧ e.2 ≠ [] ∧ ∀ p ∈ e.2, p.port_id ≠ 0)
      lines processNaabuLine [] (by intro e he; cases he) ?_
    intro acc hacc l hl
    cases l with
    | malformed => exact hacc
    | valid data =>
      cases data with
      | obj fields =>
        have hnum : ∃ n, pyGet fields "port" (Json.num 0) = Json.num n :=
          Json.isNum_iff.mp (h _ hl)
        obtain ⟨n, hp⟩ := hnum
        simp only [processNaabuLine, hp, pyToInt]
        by_cases hc : ((pyGet fields "ip" (pyGet fields "host" (Json.str ""))).truthy
            && (Json.num n).truthy) = true
        · rw [if_pos hc]
          obtain ⟨hip, hn⟩ := Bool.and_eq_true_iff.mp hc
          have hn0 : n ≠ 0 := by simpa [Json.truthy] using hn
          by_cases hck :
              containsKey acc (pyGet fields "ip" (pyGet fields "host" (Json.str ""))) = true
          · rw [if_pos hck]
            intro e he
            rcases mem_appendPort he with he | ⟨e0, he0, rfl⟩
            · exact hacc e he
            · obtain ⟨h1, h2, h3⟩ := hacc e0 he0
              refine ⟨h1, by simp, ?_⟩
              intro p hp2
              rcases List.mem_append.mp hp2 with hp2 | hp2
              · exact h3 p hp2
              · simp only [List.mem_singleton] at hp2
                subst hp2
                exact hn0
          · rw [if_neg hck]
            rw [appendPort_append_fresh _ _ _ _ (by simpa using hck)]
            intro e he
            rcases List.mem_append.mp he with he | he
            · exact hacc e he
            · simp only [List.mem_singleton] at he
              subst he
              refine ⟨hip, by simp, ?_⟩
              intro p hp2
              simp only [List.nil_append, List.mem_singleton] at hp2
              subst hp2
              exact hn0
        · rw [if_neg hc]
          exact hacc
      | null => exact hacc
      | bool b => exact hacc
      | num m => exact hacc
      | str s => exact hacc
      | arr xs => exact hacc
  intro r hr
  simp only [parseNaabuOutput, List.mem_map] at hr
  obtain ⟨e, he, rfl⟩ := hr
  exact key e he

/-- C10 counterexample: with a truthy string port the record is not
skipped; the string abc raises in int() after the host entry was already
created, leaving a HostResult with an empty port-record list, and the
string 0 converts to the integer 0, so a port reported as 0 does appear
in the canonical results. -/
theorem c10_counterexample :
    parseNaabuOutput [NaabuLine.valid (Json.obj
        [("ip", Json.str "9.9.9.9"), ("port", Json.str "abc")])] =
      [⟨Json.str "9.9.9.9", []⟩] ∧
    parseNaabuOutput [NaabuLine.valid (Json.obj
        [("ip", Json.str "8.8.8.8"), ("port", Json.str "0")])] =
      [⟨Json.str "8.8.8.8", [⟨0, "", "", "", Json.str "tcp"⟩]⟩] := by
  constructor <;> decide

/-- C10 witness: the amended invariant applied to a concrete one-line
numeric-port input. -/
theorem c10_witness :
    (Json.str "a").truthy = true ∧
      [(⟨80, "", "", "", Json.str "tcp"⟩ : PortInfo)] ≠ [] ∧
      ∀ p ∈ [(⟨80, "", "", "", Json.str "tcp"⟩ : PortInfo)], p.port_id ≠ 0 :=
  c10_parser_invariants
    [NaabuLine.valid (Json.obj [("ip", Json.str "a"), ("port", Json.num 80)])]
    (by decide) ⟨Json.str "a", [⟨80, "", "", "", Json.str "tcp"⟩]⟩ (by decide)

lemma processNaabuLine_keys_nodup (acc : List (Json × List PortInfo))
    (hacc : (acc.map Prod.fst).Nodup) (l : NaabuLine) :
    ((processNaabuLine acc l).map Prod.fst).Nodup := by
  cases l with
  | malformed => exact hacc
  | valid data =>
    cases data with
    | obj fields =>
      simp only [processNaabuLine]
      by_cases hc : ((pyGet fields "ip" (pyGet fields "host" (Json.str ""))).truthy
          && (pyGet fields "port" (Json.num 0)).truthy) = true
      · rw [if_pos hc]
        have h1 : (((if containsKey acc (pyGet fields "ip" (pyGet fields "host" (Json.str "")))
              then acc
              else acc ++ [(pyGet fields "ip" (pyGet fields "host" (Json.str "")), [])]).map
            Prod.fst)).Nodup := by
          by_cases hck :
              containsKey acc (pyGet fields "ip" (pyGet fields "host" (Json.str ""))) = true
          · rw [if_pos hck]; exact hacc
          · rw [if_neg (by simp [hck])]
            have hmem : pyGet fields "ip" (pyGet fields "host" (Json.str "")) ∉
                acc.map Prod.fst := fun hm => hck ((containsKey_iff _ _).mpr hm)
            simp only [List.map_append, List.map_cons, List.map_nil]
            rw [List.nodup_append]
            exact ⟨hacc, List.nodup_singleton _, by
              intro a ha hb
              simp only [List.mem_singleton] at hb
              exact hmem (hb ▸ ha)⟩
        cases hpt : pyToInt (pyGet fields "port" (Json.num 0)) with
        | none => exact h1
        | some pid => rw [appendPort_keys]; exact h1
      · rw [if_neg hc]; exact hacc
    | null => exact hacc
    | bool b => exact hacc
    | num m => exact hacc
    | str s => exact hacc
    | arr xs => exact hacc

lemma processNaabuLine_keys_subset (T : List Json) (acc : List (Json × List PortInfo))
    (hacc : ∀ e ∈ acc, e.1 ∈ T) (l : NaabuLine)
    (hline : ∀ fields, l = NaabuLine.valid (Json.obj fields) →
      pyGet fields "ip" (pyGet fields "host" (Json.str "")) ∈ T) :
    ∀ e ∈ processNaabuLine acc l, e.1 ∈ T := by
  cases l with
  | malformed => exact hacc
  | valid data =>
    cases data with
    | obj fields =>
      have hip : pyGet fields "ip" (pyGet fields "host" (Json.str "")) ∈ T :=
        hline fields rfl
      simp only [processNaabuLine]
      by_cases hc : ((pyGet fields "ip" (pyGet fields "host" (Json.str ""))).truthy
          && (pyGet fields "port" (Json.num 0)).truthy) = true
      · rw [if_pos hc]
        have h1 : ∀ e ∈ (if containsKey acc (pyGet fields "ip" (pyGet fields "host"
              (Json.str ""))) then acc
              else acc ++ [(pyGet fields "ip" (pyGet fields "host" (Json.str "")), [])]),
            e.1 ∈ T := by
          by_cases hck :
              containsKey acc (pyGet fields "ip" (pyGet fields "host" (Json.str ""))) = true
          · rw [if_pos hck]; exact hacc
          · rw [if_neg (by simp [hck])]
            intro e he
            rcases List.mem_append.mp he with he | he
            · exact hacc e he
            · simp only [List.mem_singleton] at he
              subst he
              exact hip
        cases hpt : pyToInt (pyGet fields "port" (Json.num 0)) with
        | none => exact h1
        | some pid =>
          intro e he
          rcases mem_appendPort he with he | ⟨e0, he0, rfl⟩
          · exact h1 e he
          · exact h1 e0 he0
      · rw [if_neg hc]; exact hacc
    | null => exact hacc
    | bool b => exact hacc
    | num m => exact hacc
    | str s => exact hacc
    | arr xs => exact hacc

/-- C8 (amended): the batch parser never produces two HostResult entries
with the same host identifier (the grouping dictionary keys are unique);
every host identifier in the output is a host/ip value named by the
external scanner output, so when every line of that output names a
member of T the result contains only members of T — but membership in
the submitted target set is not enforced by the code itself (see the
counterexample); and on the successful batch path the value returned by
port_scan is exactly the parse of the result-file content. -/
theorem c8_host_integrity :
    (∀ lines : List NaabuLine, ((parseNaabuOutput lines).map HostResult.ip).Nodup) ∧
    (∀ (lines : List NaabuLine) (T : List Json),
        (∀ fields, NaabuLine.valid (Json.obj fields) ∈ lines →
          pyGet fields "ip" (pyGet fields "host" (Json.str "")) ∈ T) →
        ∀ r ∈ parseNaabuOutput lines, r.ip ∈ T) ∧
    (∀ (nb : String → Bool) (ienv : String → IndivOutcome) (targets : List String)
        (stdout content : List NaabuLine),
        (pyDedupFilter nb targets).isEmpty = false →
        naabuPortScanRun nb (BatchOutcome.completed 0 stdout true (some content)) ienv
            targets = parseNaabuOutput content) := by
  refine ⟨fun lines => ?_, fun lines T hT r hr => ?_, fun nb ienv targets stdout content h => ?_⟩
  · have key : ((lines.foldl processNaabuLine []).map Prod.fst).Nodup := by
      refine @List.foldlRecOn _ _ (fun acc => (acc.map Prod.fst).Nodup)
        lines processNaabuLine [] (by simp) ?_
      intro acc hacc l _
      exact processNaabuLine_keys_nodup acc hacc l
    simpa [parseNaabuOutput, List.map_map, Function.comp] using key
  · have key : ∀ e ∈ lines.foldl processNaabuLine [], e.1 ∈ T := by
      refine @List.foldlRecOn _ _ (fun acc => ∀ e ∈ acc, e.1 ∈ T)
        lines processNaabuLine [] (by intro e he; cases he) ?_
      intro acc hacc l hl
      exact processNaabuLine_keys_subset T acc hacc l
        (fun fields hf => hT fields (hf ▸ hl))
    simp only [parseNaabuOutput, List.mem_map] at hr
    obtain ⟨e, he, rfl⟩ := hr
    exact key e he
  · simp [naabuPortScanRun, h, scanBatchTargets]

/-- C8 counterexample: a batch output line may name a host outside the
submitted target set and port_scan returns it unchanged — the code never
checks output hosts against the targets. -/
theorem c8_counterexample :
    naabuPortScanRun (fun _ => true)
        (BatchOutcome.completed 0 []
          true (some [NaabuLine.valid (Json.obj
            [("ip", Json.str "9.9.9.9"), ("port", Json.num 80)])]))
        (fun _ => IndivOutcome.raised) ["1.1.1.1"] =
      [⟨Json.str "9.9.9.9", [⟨80, "", "", "", Json.str "tcp"⟩]⟩] ∧
    Json.str "9.9.9.9" ∉ (["1.1.1.1"].map Json.str) := by
  constructor <;> decide

/-- C8 witness: the amended clauses applied at concrete inputs. -/
theorem c8_witness :
    (⟨Json.str "a", [⟨80, "", "", "", Json.str "tcp"⟩]⟩ : HostResult).ip ∈
        [Json.str "a", Json.str "b"] ∧
    naabuPortScanRun (fun _ => true)
        (BatchOutcome.completed 0 [] true (some [])) (fun _ => IndivOutcome.raised)
        ["h"] = [] :=
  ⟨c8_host_integrity.2.1
      [NaabuLine.valid (Json.obj [("ip", Json.str "a"), ("port", Json.num 80)])]
      [Json.str "a", Json.str "b"]
      (by intro fields hf
          simp only [List.mem_singleton] at hf
          injection hf with h1
          injection h1 with h2
          subst h2
          decide)
      ⟨Json.str "a", [⟨80, "", "", "", Json.str "tcp"⟩]⟩ (by decide),
    c8_host_integrity.2.2 (fun _ => true) (fun _ => IndivOutcome.raised) ["h"] []
      [] (by decide)⟩

/-- C1 (amended): on a non-zero batch return code, and on a batch
timeout, the orchestrator falls back to one individual invocation per
target; a target whose individual invocation raises contributes nothing
and never aborts the other targets; and the fallback output is exactly
the union of the individual-invocation outputs (every individual success
appears in the output, and everything in the output is some individual
success). When the batch process exits 0 but the result file never
appears within the grace-wait, the code does NOT fall back individually:
it parses stdout, returning empty when stdout is empty (see the
counterexample). -/
theorem c1_batch_failure_fallback :
    (∀ (ienv : String → IndivOutcome) (ts : List String) (rc : Int)
        (stdout : List NaabuLine) (fc : Bool) (fcon : Option (List NaabuLine)),
        rc ≠ 0 →
        scanBatchTargets (BatchOutcome.completed rc stdout fc fcon) ienv ts =
          scanTargetsIndividually ienv ts) ∧
    (∀ (ienv : String → IndivOutcome) (ts : List String) (c : Bool),
        scanBatchTargets (BatchOutcome.timedOut c) ienv ts =
          scanTargetsIndividually ienv ts) ∧
    (∀ (ienv : String → IndivOutcome) (xs ys : List String) (t : String),
        ienv t = IndivOutcome.raised →
        scanTargetsIndividually ienv (xs ++ t :: ys) =
          scanTargetsIndividually ienv (xs ++ ys)) ∧
    (∀ (ienv : String → IndivOutcome) (ts : List String) (t : String) (r : HostResult),
        t ∈ ts → scanSingleTarget (ienv t) = some r →
        r ∈ scanTargetsIndividually ienv ts) ∧
    (∀ (ienv : String → IndivOutcome) (ts : List String) (r : HostResult),
        r ∈ scanTargetsIndividually ienv ts →
        ∃ t ∈ ts, scanSingleTarget (ienv t) = some r) := by
  refine ⟨fun ienv ts rc stdout fc fcon h => ?_, fun ienv ts c => rfl,
    fun ienv xs ys t h => ?_, fun ienv ts t r ht hr => ?_, fun ienv ts r hr => ?_⟩
  · simp [scanBatchTargets, h]
  · simp [scanTargetsIndividually, List.filterMap_append, List.filterMap_cons, h,
      scanSingleTarget]
  · exact List.mem_filterMap.mpr ⟨t, ht, hr⟩
  · exact List.mem_filterMap.mp hr

/-- C1 counterexample: the batch process exits 0, the result file never
appears and stdout is empty; each individual invocation of the same
target would succeed, yet the run returns the empty list instead of
retrying the targets individually — the missing-result-file transition
claimed by the spec does not reach the fallback in the naabu
orchestrator. -/
theorem c1_counterexample :
    scanBatchTargets (BatchOutcome.completed 0 [] false none)
        (fun _ => IndivOutcome.completed 0
          [NaabuLine.valid (Json.obj [("ip", Json.str "1.1.1.1"), ("port", Json.num 80)])]
          false none) ["1.1.1.1"] = [] ∧
    (scanSingleTarget ((fun _ => IndivOutcome.completed 0
        [NaabuLine.valid (Json.obj [("ip", Json.str "1.1.1.1"), ("port", Json.num 80)])]
        false none) "1.1.1.1")).isSome = true ∧
    scanTargetsIndividually
        (fun _ => IndivOutcome.completed 0
          [NaabuLine.valid (Json.obj [("ip", Json.str "1.1.1.1"), ("port", Json.num 80)])]
          false none) ["1.1.1.1"] =
      [⟨Json.str "1.1.1.1", [⟨80, "", "", "", Json.str "tcp"⟩]⟩] := by
  refine ⟨rfl, by decide, by decide⟩

/-- C1 witness: the amended clauses applied at concrete inputs — a
non-zero exit falls back, and a raising target drops out without
affecting its neighbour. -/
theorem c1_witness :
    scanBatchTargets
        (BatchOutcome.completed 1 [] false none) (fun _ => IndivOutcome.raised) ["a"] =
      scanTargetsIndividually (fun _ => IndivOutcome.raised) ["a"] ∧
    scanTargetsIndividually (fun _ => IndivOutcome.raised) (["a"] ++ "b" :: ["c"]) =
      scanTargetsIndividually (fun _ => IndivOutcome.raised) (["a"] ++ ["c"]) :=
  ⟨c1_batch_failure_fallback.1 (fun _ => IndivOutcome.raised) ["a"] 1 [] false none
      (by decide),
    c1_batch_failure_fallback.2.2.1 (fun _ => IndivOutcome.raised) ["a"] ["c"] "b" rfl⟩

lemma scanSingleTargetFS_id {fs : Finset String} {name : String} (o : IndivOutcome)
    (h : name ∉ fs) : scanSingleTargetFS fs name o = fs := by
  unfold scanSingleTargetFS
  cases o.createsFile
  · rw [if_neg (by simp)]
    exact Finset.erase_eq_of_not_mem h
  · rw [if_pos rfl]
    exact Finset.erase_insert h

lemma scanTargetsIndividuallyFS_id {fs : Finset String} {tmp : NaabuTmpFiles}
    {ienv : String → IndivOutcome} {targets : List String}
    (h : ∀ t ∈ targets, tmp.indivResultFile t ∉ fs) :
    scanTargetsIndividuallyFS fs tmp ienv targets = fs := by
  unfold scanTargetsIndividuallyFS
  refine @List.foldlRecOn _ _ (fun s => s = fs) targets _ fs rfl ?_
  intro s hs t ht
  subst hs
  exact scanSingleTargetFS_id (ienv t) (h t ht)

lemma eraseBatchFiles (fs : Finset String) (bT bR : String) (c : Bool)
    (hT : bT ∉ fs) (hR : bR ∉ fs) (hTR : bT ≠ bR) :
    ((if c then insert bR (insert bT fs) else insert bT fs).erase bT).erase bR = fs := by
  cases c
  · rw [if_neg (by simp), Finset.erase_insert hT, Finset.erase_eq_of_not_mem hR]
  · rw [if_pos rfl, Finset.erase_insert_of_ne (Ne.symm hTR), Finset.erase_insert hT,
      Finset.erase_insert hR]

lemma indivNamesFresh (fs : Finset String) (bT bR : String) (f : String → String)
    (targets : List String) (c : Bool)
    (hI : ∀ t ∈ targets, f t ∉ fs ∧ f t ≠ bT ∧ f t ≠ bR) :
    ∀ t ∈ targets, f t ∉ (if c then insert bR (insert bT fs) else insert bT fs) := by
  intro t ht
  obtain ⟨h1, h2, h3⟩ := hI t ht
  cases c <;> simp [h1, h2, h3]

/-- C5: the cleanup invariant. For the naabu batch orchestrator, under
fresh pairwise-distinct temporary names, the file-system state after any
exit path (success, batch failure with individual fallback, parse
failure, exception, or subprocess timeout) equals the state before the
run: every temporary target and result file created by the run, batch or
per-target, has been deleted. The same holds for every exit path of
NucleiScan.run. -/
theorem c5_cleanup_invariant :
    (∀ (fs : Finset String) (tmp : NaabuTmpFiles) (env : BatchOutcome)
        (ienv : String → IndivOutcome) (targets : List String),
        tmp.batchTargetFile ∉ fs → tmp.batchResultFile ∉ fs →
        tmp.batchTargetFile ≠ tmp.batchResultFile →
        (∀ t ∈ targets, tmp.indivResultFile t ∉ fs ∧
            tmp.indivResultFile t ≠ tmp.batchTargetFile ∧
            tmp.indivResultFile t ≠ tmp.batchResultFile) →
        scanBatchTargetsFS fs tmp env ienv targets = fs) ∧
    (∀ (fs : Finset String) (tmp : NucleiTmpFiles) (env : NucleiEnv),
        tmp.targetPath ∉ fs → tmp.vscanResultPath ∉ fs → tmp.resultPath ∉ fs →
        tmp.targetPath ≠ tmp.vscanResultPath → tmp.resultPath ≠ tmp.targetPath →
        tmp.resultPath ≠ tmp.vscanResultPath →
        nucleiRunFS fs tmp env = fs) := by
  constructor
  · intro fs tmp env ienv targets hT hR hTR hI
    cases env with
    | raisedOther c =>
      simp only [scanBatchTargetsFS, BatchOutcome.createsFile]
      exact eraseBatchFiles fs _ _ c hT hR hTR
    | timedOut c =>
      simp only [scanBatchTargetsFS, BatchOutcome.createsFile]
      rw [scanTargetsIndividuallyFS_id
        (indivNamesFresh fs _ _ tmp.indivResultFile targets c hI)]
      exact eraseBatchFiles fs _ _ c hT hR hTR
    | completed rc stdout fc fcon =>
      simp only [scanBatchTargetsFS, BatchOutcome.createsFile]
      by_cases hrc : rc ≠ 0
      · rw [if_pos hrc]
        rw [scanTargetsIndividuallyFS_id
          (indivNamesFresh fs _ _ tmp.indivResultFile targets fc hI)]
        exact eraseBatchFiles fs _ _ fc hT hR hTR
      · rw [if_neg hrc]
        exact eraseBatchFiles fs _ _ fc hT hR hTR
  · intro fs tmp env hT hV hRp hTV hRT hRV
    cases env with
    | earlyReturn =>
      simp only [nucleiRunFS]
      rw [Finset.erase_insert hT, Finset.erase_eq_of_not_mem hRp,
        Finset.erase_eq_of_not_mem hV]
    | raisedInExec =>
      simp only [nucleiRunFS]
      rw [Finset.erase_insert hT, Finset.erase_eq_of_not_mem hRp,
        Finset.erase_eq_of_not_mem hV]
    | ran created =>
      cases created
      · simp only [nucleiRunFS]
        rw [Finset.erase_insert hT, Finset.erase_eq_of_not_mem hRp,
          Finset.erase_eq_of_not_mem hV]
      · simp only [nucleiRunFS]
        rw [Finset.erase_insert_of_ne (Ne.symm hTV), Finset.erase_insert hT,
          Finset.erase_eq_of_not_mem
            (fun hm => (Finset.mem_insert.mp hm).elim hRV hRp),
          Finset.erase_insert hV]

/-- C5 witness: both cleanup clauses applied to a concrete run — a timed
out batch over one target whose fallback scan also times out after
creating its file, and a nuclei run whose tool created its result file —
each restore the empty file system. -/
theorem c5_witness :
    scanBatchTargetsFS ∅ ⟨"tgt", "res", fun t => t ++ ".json"⟩
        (BatchOutcome.timedOut true) (fun _ => IndivOutcome.timedOut true) ["a"] = ∅ ∧
    nucleiRunFS ∅ ⟨"nt", "nr", "vr"⟩ (NucleiEnv.ran true) = ∅ :=
  ⟨c5_cleanup_invariant.1 ∅ ⟨"tgt", "res", fun t => t ++ ".json"⟩
      (BatchOutcome.timedOut true) (fun _ => IndivOutcome.timedOut true) ["a"]
      (by decide) (by decide) (by decide)
      (by intro t ht
          simp only [List.mem_singleton] at ht
          subst ht
          refine ⟨by decide, by decide, by decide⟩),
    c5_cleanup_invariant.2 ∅ ⟨"nt", "nr", "vr"⟩ (NucleiEnv.ran true)
      (by decide) (by decide) (by decide) (by decide) (by decide) (by decide)⟩

/-- C2 (amended): the miniscan resolver follows the claimed order — a
known symbolic token (after strip and lowercase) maps to itself, the
literal full range maps to all, any other non-empty specification is
custom, an empty specification falls back to the scan-type hint (test
mapping to top100) and with neither the result is top1000. The naabu
resolver recognises its own token set (the three configured port-list
strings, mapped to the naabu arguments 100 and 1000) and the full-range
literal (mapped to full), treats any other non-empty specification as
custom, and maps an empty specification directly to top1000: it never
consults the scan-type hint (see the counterexample). -/
theorem c2_scan_mode_resolution :
    (∀ t, miniscanDetermineScanMode t (some "0-65535") = "all") ∧
    miniscanDetermineScanMode (some "test") (some "") = "top100" ∧
    miniscanDetermineScanMode (some "test") none = "top100" ∧
    miniscanDetermineScanMode none none = "top1000" ∧
    (∀ t s, s ≠ "" →
        (pyLower (pyStrip s) = "top100" ∨ pyLower (pyStrip s) = "top1000" ∨
          pyLower (pyStrip s) = "all") →
        miniscanDetermineScanMode t (some s) = pyLower (pyStrip s)) ∧
    (∀ t s, s ≠ "" → pyLower (pyStrip s) ≠ "top100" →
        pyLower (pyStrip s) ≠ "top1000" → pyLower (pyStrip s) ≠ "all" →
        pyLower (pyStrip s) ≠ "0-65535" →
        miniscanDetermineScanMode t (some s) = "custom") ∧
    (∀ c10 c100 c1000 s, s ≠ "" → s ≠ c10 → s ≠ c100 → s ≠ c1000 → s ≠ "0-65535" →
        naabuDetermineScanMode c10 c100 c1000 (some s) = "custom") ∧
    (∀ c10 c100 c1000, "0-65535" ≠ c10 → "0-65535" ≠ c100 → "0-65535" ≠ c1000 →
        naabuDetermineScanMode c10 c100 c1000 (some "0-65535") = "full") ∧
    (∀ c10 c100 c1000, naabuDetermineScanMode c10 c100 c1000 none = "top1000" ∧
        naabuDetermineScanMode c10 c100 c1000 (some "") = "top1000") := by
  refine ⟨fun t => rfl, rfl, rfl, rfl, ?_, ?_, ?_, ?_, fun c10 c100 c1000 => ⟨rfl, rfl⟩⟩
  · intro t s hs htok
    have hb : ((decide (pyLower (pyStrip s) = "top100") ||
        decide (pyLower (pyStrip s) = "top1000")) ||
          decide (pyLower (pyStrip s) = "all")) = true := by
      rcases htok with h | h | h <;> simp [h]
    simp only [miniscanDetermineScanMode]
    rw [if_pos hs, if_pos hb]
  · intro t s hs h1 h2 h3 h4
    have hb : ¬(((decide (pyLower (pyStrip s) = "top100") ||
        decide (pyLower (pyStrip s) = "top1000")) ||
          decide (pyLower (pyStrip s) = "all")) = true) := by
      simp [h1, h2, h3]
    simp only [miniscanDetermineScanMode]
    rw [if_pos hs, if_neg hb, if_neg h4]
  · intro c10 c100 c1000 s hs h10 h100 h1000 hfull
    simp only [naabuDetermineScanMode]
    rw [if_neg hs, if_neg h10, if_neg h100, if_neg h1000, if_neg hfull]
  · intro c10 c100 c1000 h10 h100 h1000
    simp only [naabuDetermineScanMode]
    rw [if_neg (by decide), if_neg h10, if_neg h100, if_neg h1000]
    simp

/-- C2 counterexample: with an empty port specification the naabu
resolver returns top1000 no matter what scan-type hint the scanner was
configured with (the resolver does not even take the hint as input), so
resolve of the empty specification with the scan-type test is top1000,
not top100 as the claim requires; the miniscan resolver does return
top100 there. -/
theorem c2_counterexample :
    naabuDetermineScanMode "21,22,80" "80,443" "80,443,8080" (some "") = "top1000" ∧
    miniscanDetermineScanMode (some "test") (some "") = "top100" ∧
    ("top1000" : String) ≠ "top100" := by
  refine ⟨rfl, rfl, by decide⟩

/-- C2 witness: the general clauses applied at concrete inputs — a
symbolic token with surrounding whitespace and capitals, and an explicit
port list under the naabu resolver. -/
theorem c2_witness :
    miniscanDetermineScanMode none (some " TOP100 ") = "top100" ∧
    naabuDetermineScanMode "21,22,80" "80,443" "80,443,8080" (some "8080-8090") =
      "custom" :=
  ⟨by have h := c2_scan_mode_resolution.2.2.2.2.1 none " TOP100 " (by decide)
        (by decide)
      simpa using h,
    c2_scan_mode_resolution.2.2.2.2.2.2.1 "21,22,80" "80,443" "80,443,8080" "8080-8090"
      (by decide) (by decide) (by decide) (by decide) (by decide)⟩

/-- C3 (amended): the naabu counter sums, over the comma-separated
components, 1 for a dash-free component, end - start + 1 for a component
splitting into exactly two int()-parsable halves, and 1 for every
malformed component (more than two dash-separated pieces, or a half on
which int() raises) — it is a total function and the example list counts
13 ports. The miniscan counter behaves the same on well-formed input
(a dash-free component counts 1 and the example also counts 13) but
raises a ValueError on a malformed range component instead of counting
it as 1 (see the counterexample). -/
theorem c3_count_ports :
    naabuCountPorts "80,443,8080-8090" = 13 ∧
    (∀ s, s ≠ "" → naabuCountPorts s = ((pySplitOn s ',').map naabuCountPart).sum) ∧
    (∀ p, pyContainsChar (pyStrip p) '-' = false → naabuCountPart p = 1) ∧
    (∀ p x y a b, pyContainsChar (pyStrip p) '-' = true →
        pySplitOn (pyStrip p) '-' = [x, y] →
        pyStrToInt x = some a → pyStrToInt y = some b →
        naabuCountPart p = b - a + 1) ∧
    (∀ p x y z rest, pyContainsChar (pyStrip p) '-' = true →
        pySplitOn (pyStrip p) '-' = x :: y :: z :: rest → naabuCountPart p = 1) ∧
    (∀ p x y, pyContainsChar (pyStrip p) '-' = true →
        pySplitOn (pyStrip p) '-' = [x, y] →
        (pyStrToInt x = none ∨ pyStrToInt y = none) → naabuCountPart p = 1) ∧
    (∀ p, pyContainsChar p '-' = false → miniscanCountPart p = some 1) ∧
    miniscanCountPorts "80,443,8080-8090" = some 13 := by
  refine ⟨by decide, ?_, ?_, ?_, ?_, ?_, ?_, by decide⟩
  · intro s hs
    simp only [naabuCountPorts]
    rw [if_neg hs]
  · intro p h
    simp only [naabuCountPart]
    rw [if_neg (by simp [h])]
  · intro p x y a b h hsplit hx hy
    simp only [naabuCountPart]
    rw [if_pos h]
    simp only [hsplit, hx, hy]
  · intro p x y z rest h hsplit
    simp only [naabuCountPart]
    rw [if_pos h, hsplit]
  · intro p x y h hsplit hxy
    simp only [naabuCountPart]
    rw [if_pos h]
    rcases hxy with hx | hy
    · simp only [hsplit, hx]
    · cases hpx : pyStrToInt x with
      | none => simp only [hsplit, hpx]
      | some a => simp only [hsplit, hpx, hy]
  · intro p h
    simp only [miniscanCountPart]
    rw [if_neg (by simp [h])]

/-- C3 counterexample: on the specification 80,1-2-3 the naabu counter
counts the malformed range as 1 port and returns 2, while the miniscan
counter raises a ValueError (none) — so the computed port count is not
exception-free for every custom specification. -/
theorem c3_counterexample :
    naabuCountPorts "80,1-2-3" = 2 ∧ miniscanCountPorts "80,1-2-3" = none := by
  constructor <;> decide

/-- C3 witness: the range clause applied to a concrete component. -/
theorem c3_witness : naabuCountPart "8080-8090" = 11 := by
  have h := c3_count_ports.2.2.2.1 "8080-8090" "8080" "8090" 8080 8090
    (by decide) (by decide) (by decide) (by decide)
  rw [h]
  decide

/-- C6: both batch timeout estimates are clamped into their declared
intervals for every combination of port count, target count and positive
rate/parallelism — the naabu batch estimate into 600 to 7200 seconds,
the miniscan batch estimate into 60 to 1800 seconds — and the naabu
estimate has exactly the clamped shape base plus scaled scan time plus
buffer, with the safety factor raised from 5 to 8 and the buffer from
300 to 600 seconds past the large-scan thresholds of 1000 ports or 10
targets. -/
theorem c6_timeout_bounds :
    (∀ P N C t, naabuBatchTimeout P N C = some t → 600 ≤ t ∧ t ≤ 7200) ∧
    (∀ P N C u, 60 ≤ miniscanBatchTimeout P N C u ∧
        miniscanBatchTimeout P N C u ≤ 1800) ∧
    (∀ P N C, C ≠ 0 →
        naabuBatchTimeout P N C = some (max 600 (min 7200 (Int.toNat
          ⌊(180 : ℚ) + (((P : ℚ) * (N : ℚ)) / (C : ℚ)) *
              (if 1000 < P ∨ 10 < N then 8 else 5) +
            (if 1000 < P ∨ 10 < N then 600 else 300)⌋)))) := by
  refine ⟨?_, ?_, ?_⟩
  · intro P N C t h
    by_cases hC : C = 0
    · simp [naabuBatchTimeout, hC] at h
    · simp only [naabuBatchTimeout] at h
      rw [if_neg hC] at h
      have ht := (Option.some_inj.mp h).symm
      subst ht
      exact ⟨Nat.le_max_left _ _,
        Nat.max_le.mpr ⟨by norm_num, Nat.min_le_left _ _⟩⟩
  · intro P N C u
    exact ⟨Nat.le_max_left _ _,
      Nat.max_le.mpr ⟨by norm_num, Nat.min_le_left _ _⟩⟩
  · intro P N C hC
    simp only [naabuBatchTimeout]
    rw [if_neg hC]

/-- C6 witness: the extreme input of 65535 ports, 10000 targets and rate
1 evaluates to the upper clamp of 7200 seconds, inside the declared
interval. -/
theorem c6_witness :
    naabuBatchTimeout 65535 10000 1 = some 7200 ∧ 600 ≤ 7200 ∧ 7200 ≤ 7200 := by
  have heval : naabuBatchTimeout 65535 10000 1 = some 7200 := by
    rw [c6_timeout_bounds.2.2 65535 10000 1 (by norm_num)]
    norm_num
  exact ⟨heval, c6_timeout_bounds.1 65535 10000 1 7200 heval⟩

/-- C7: the scheme-collapse of the surviving probe set keeps every https
entry; keeps an http entry exactly when no https variant of the same
host is among the survivors (the https variant being https glued onto
the URL with its 7-character http prefix sliced off); and collapses the
concrete surviving set of the claim to https a with http b. -/
theorem c7_scheme_collapse :
    (∀ (sites : List String) (x : String), x ∈ sites →
        pyStartsWith x "https://" = true → x ∈ schemeCollapse sites) ∧
    (∀ (sites : List String) (x : String), x ∈ sites →
        pyStartsWith x "https://" = false → pyStartsWith x "http://" = true →
        (x ∈ schemeCollapse sites ↔ ("https://" ++ pyDropChars x 7) ∉ sites)) ∧
    schemeCollapse ["https://a", "http://a", "http://b"] = ["https://a", "http://b"] := by
  refine ⟨?_, ?_, by decide⟩
  · intro sites x hx h
    refine List.mem_filter.mpr ⟨hx, ?_⟩
    rw [if_pos h]
  · intro sites x hx h1 h2
    rw [schemeCollapse, List.mem_filter]
    constructor
    · rintro ⟨-, hp⟩
      rw [if_neg (by simp [h1]), if_pos h2] at hp
      intro hmem
      have hc : sites.contains ("https://" ++ pyDropChars x 7) = true :=
        List.elem_iff.mpr hmem
      rw [hc] at hp
      simp at hp
    · intro hnot
      refine ⟨hx, ?_⟩
      rw [if_neg (by simp [h1]), if_pos h2]
      have hc : sites.contains ("https://" ++ pyDropChars x 7) = false := by
        cases hcc : sites.contains ("https://" ++ pyDropChars x 7)
        · rfl
        · exact absurd (List.elem_iff.mp hcc) hnot
      rw [hc]
      rfl

/-- C7 witness: the https-keep and http-drop clauses applied to the
concrete surviving set of the claim. -/
theorem c7_witness :
    "https://a" ∈ schemeCollapse ["https://a", "http://a", "http://b"] ∧
    ("http://a" ∈ schemeCollapse ["https://a", "http://a", "http://b"] ↔
      ("https://" ++ pyDropChars "http://a" 7) ∉ ["https://a", "http://a", "http://b"]) :=
  ⟨c7_scheme_collapse.1 ["https://a", "http://a", "http://b"] "https://a"
      (by decide) (by decide),
    c7_scheme_collapse.2.1 ["https://a", "http://a", "http://b"] "http://a"
      (by decide) (by decide) (by decide)⟩

/-- C9: every HTTP response keeps a probed target alive except the
gateway statuses 502 and 504, whose targets are dropped from the result
entirely; a network exception on one target only drops that target and
never disturbs the rest of the batch — shown for both the ProbeHTTP
survivor list and the CheckHTTP checkout map, whose stored entry carries
the status and Content-Type of the response. -/
theorem c9_liveness_rule :
    (∀ (outcome : String → ProbeOutcome) (targets : List String) (t : String) (s : Int),
        t ∈ targets → outcome t = ProbeOutcome.response s →
        (t ∈ probeSurvivors outcome targets ↔ ¬(s = 502 ∨ s = 504))) ∧
    (∀ (outcome : String → ProbeOutcome) (xs ys : List String) (t : String),
        outcome t = ProbeOutcome.raised →
        probeSurvivors outcome (xs ++ t :: ys) = probeSurvivors outcome (xs ++ ys)) ∧
    (∀ (outcome : String → CheckOutcome) (urls : List String) (u : String) (s : Int)
        (ct : String), u ∈ urls → outcome u = CheckOutcome.response s ct →
        ¬(s = 502 ∨ s = 504) → (u, CheckItem.mk s ct) ∈ checkHTTPRun outcome urls) ∧
    (∀ (outcome : String → CheckOutcome) (urls : List String) (u : String) (s : Int)
        (ct : String), outcome u = CheckOutcome.response s ct → (s = 502 ∨ s = 504) →
        ∀ item, (u, item) ∉ checkHTTPRun outcome urls) ∧
    (∀ (outcome : String → CheckOutcome) (xs ys : List String) (u : String),
        outcome u = CheckOutcome.raisedRequest →
        checkHTTPRun outcome (xs ++ u :: ys) = checkHTTPRun outcome (xs ++ ys)) := by
  refine ⟨?_, ?_, ?_, ?_, ?_⟩
  · intro outcome targets t s ht hres
    rw [probeSurvivors, List.mem_filter]
    rw [hres]
    simp only [probeAlive]
    constructor
    · rintro ⟨-, hp⟩
      simpa using hp
    · intro hns
      exact ⟨ht, by simpa using hns⟩
  · intro outcome xs ys t h
    simp [probeSurvivors, List.filter_append, h, probeAlive]
  · intro outcome urls u s ct hu hres hns
    refine List.mem_filterMap.mpr ⟨u, hu, ?_⟩
    rw [hres]
    simp only [Option.some.injEq]
    rw [if_neg (by simpa using hns)]
  · intro outcome urls u s ct hres hs item hmem
    obtain ⟨a, ha, hfa⟩ := List.mem_filterMap.mp hmem
    cases hoa : outcome a with
    | raisedRequest => simp [hoa] at hfa
    | raisedOther => simp [hoa] at hfa
    | response sa cta =>
      simp only [hoa] at hfa
      by_cases hsa : (decide (sa = 502) || decide (sa = 504)) = true
      · rw [if_pos hsa] at hfa
        exact Option.noConfusion hfa
      · rw [if_neg hsa] at hfa
        have hau : a = u := congrArg Prod.fst (Option.some_inj.mp hfa)
        rw [hau, hres] at hoa
        injection hoa with h1 h2
        subst h1
        exact hsa (by simpa using hs)
  · intro outcome xs ys u h
    simp [checkHTTPRun, List.filterMap_append, h]

/-- C9 witness: the liveness clauses applied at concrete outcomes — a
200 response survives, a 502 response is dropped, and a raising target
leaves its neighbours untouched. -/
theorem c9_witness :
    ("a" ∈ probeSurvivors
        (fun t => if t = "a" then ProbeOutcome.response 200 else ProbeOutcome.raised)
        ["a", "b"] ↔ ¬((200 : Int) = 502 ∨ (200 : Int) = 504)) ∧
    probeSurvivors
        (fun t => if t = "a" then ProbeOutcome.response 200 else ProbeOutcome.raised)
        (["a"] ++ "b" :: []) =
      probeSurvivors
        (fun t => if t = "a" then ProbeOutcome.response 200 else ProbeOutcome.raised)
        (["a"] ++ []) ∧
    ("u", CheckItem.mk 200 "text/html") ∈ checkHTTPRun
        (fun _ => CheckOutcome.response 200 "text/html") ["u"] :=
  ⟨c9_liveness_rule.1
      (fun t => if t = "a" then ProbeOutcome.response 200 else ProbeOutcome.raised)
      ["a", "b"] "a" 200 (by decide) rfl,
    c9_liveness_rule.2.1
      (fun t => if t = "a" then ProbeOutcome.response 200 else ProbeOutcome.raised)
      ["a"] [] "b" rfl,
    c9_liveness_rule.2.2.1 (fun _ => CheckOutcome.response 200 "text/html") ["u"] "u"
      200 "text/html" (by decide) rfl (by decide)⟩
